import Mathlib

/-!
Verification development for the ccl-test-lib capability-compatibility engine
and source-to-flat transformation pipeline.

The Go sources embedded here are:
  * config/config.go           — ImplementationConfig and the Has* predicates;
  * loader (loader.go + the newer loader file) — IsTestCompatible,
    FilterCompatibleTests, GetTestStatistics, LoadTestFile (flat branch),
    loadCompactFormat, createValidationObject, extractExpectedValue;
  * generator — TransformSourceToFlat, GenerateMetadataFromValidation,
    parseValidationValue, behaviorFunctionMap, filterBehaviorsForFunction,
    filterConflictsForFunction, getArgsForValidation.

Modelling conventions:
  * Go string-typed identifiers (CCLFunction, CCLFeature, CCLBehavior,
    CCLVariant) are plain String.
  * A Go slice that the code distinguishes from nil is Option (List String)
    (none = nil slice, some [] = empty non-nil slice); a slice whose
    nil/empty distinction the code never observes is a plain List.
  * Go interface values holding decoded JSON are the Json inductive below.
  * Fallible Go functions returning (T, error) are Except String T, or a
    plain value where the source can only ever return a nil error.
-/

/-- A JSON-like dynamic value, modelling the Go interface values produced
by encoding/json (map becomes obj with an association list, Go map-key
lookup becomes first-match lookup; slices become arr; numbers are opaque
here since no embedded code computes with them). -/
inductive Json where
  | null : Json
  | bool (b : Bool) : Json
  | str (s : String) : Json
  | num (n : Int) : Json
  | arr (elems : List Json) : Json
  | obj (fields : List (String × Json)) : Json

/-- Go map-index lookup on a decoded JSON object: first binding wins
(Go maps cannot hold duplicate keys, so the association list is written
without duplicates at every use site). -/
def jsonLookup (fields : List (String × Json)) (key : String) : Option Json :=
  match fields with
  | [] => none
  | (k, v) :: rest => if k == key then some v else jsonLookup rest key

/-- ImplementationConfig from config/config.go. Field defaults are the Go
zero values, so a Go composite literal that omits fields is the Lean
structure literal that omits them. -/
structure ImplementationConfig where
  name : String := ""
  version : String := ""
  supportedFunctions : List String := []
  supportedFeatures : List String := []
  behaviorChoices : List String := []
  variantChoice : String := ""
  unsupportedFeatures : List String := []
  unsupportedFunctions : List String := []
deriving DecidableEq

/-- HasFunction from config/config.go: linear scan of SupportedFunctions. -/
def hasFunction (c : ImplementationConfig) (fn : String) : Bool :=
  c.supportedFunctions.contains fn

/-- HasFeature from config/config.go: the supported scan runs first and
returns true on a hit; only then is the unsupported list scanned (that
scan and the fall-through both return false). -/
def hasFeature (c : ImplementationConfig) (feature : String) : Bool :=
  if c.supportedFeatures.contains feature then true
  else if c.unsupportedFeatures.contains feature then false
  else false

/-- HasBehavior from config/config.go. -/
def hasBehavior (c : ImplementationConfig) (behavior : String) : Bool :=
  c.behaviorChoices.contains behavior

/-- HasVariant from config/config.go: equality with the single VariantChoice. -/
def hasVariant (c : ImplementationConfig) (variant : String) : Bool :=
  c.variantChoice == variant

/-- GetBehaviorConflicts from config/config.go: the mutually exclusive
behavior groups (a Go map literal, modelled as an association list; the
iteration order only influences which group an error message names, not
whether validation succeeds). -/
def getBehaviorConflicts : List (String × List String) :=
  [("crlf_handling", ["crlf_normalize_to_lf", "crlf_preserve_literal"]),
   ("tab_handling", ["tabs_preserve", "tabs_to_spaces"]),
   ("spacing", ["strict_spacing", "loose_spacing"]),
   ("boolean", ["boolean_strict", "boolean_lenient"]),
   ("list_coercion", ["list_coercion_enabled", "list_coercion_disabled"])]

/-- IsValid from config/config.go, modelled as its success bit: for each
group, count the group members that are among BehaviorChoices; valid when
no group has more than one. -/
def isValidConfig (c : ImplementationConfig) : Bool :=
  getBehaviorConflicts.all
    (fun g => decide ((g.2.filter (fun b => c.behaviorChoices.contains b)).length ≤ 1))

/-- ConflictSet from the types package. The code never distinguishes a nil
from an empty sub-list inside a ConflictSet (it only takes len and ranges),
so the fields are plain lists. -/
structure ConflictSet where
  functions : List String := []
  behaviors : List String := []
  variants : List String := []
  features : List String := []
deriving DecidableEq

/-- TestMetadata from the types package (carried through the pipeline
unchanged; no embedded operation inspects it beyond copying). -/
structure TestMetadata where
  tags : Option (List String) := none
  metaConflicts : Option (List String) := none
  level : Int := 0
  feature : String := ""
  difficulty : String := ""
deriving DecidableEq

/-- ValidationSet: the fixed record of optional validation slots of the
source format. Modelled from the spec and from the repository evidence
(the types file of the current tree is not under src/; the slot names and
their order are those of loadCompactFormat's switch and of the generator's
behavior table, matching the older in-repo types.go layout). Each slot is
an optional dynamic value. -/
structure ValidationSet where
  parse : Option Json := none
  parseDedented : Option Json := none
  filter : Option Json := none
  combine : Option Json := none
  expandDotted : Option Json := none
  buildHierarchy : Option Json := none
  getString : Option Json := none
  getInt : Option Json := none
  getBool : Option Json := none
  getFloat : Option Json := none
  getList : Option Json := none
  prettyPrint : Option Json := none
  roundTrip : Option Json := none
  associativity : Option Json := none
  canonical : Option Json := none

/-- The generator iterates the ValidationSet fields by reflection in
declaration order and reads each field's JSON tag as the validation name;
this list is that iteration made explicit: (jsonName, slot) pairs in
field-declaration order. -/
def ValidationSet.slots (vs : ValidationSet) : List (String × Option Json) :=
  [("parse", vs.parse),
   ("parse_dedented", vs.parseDedented),
   ("filter", vs.filter),
   ("combine", vs.combine),
   ("expand_dotted", vs.expandDotted),
   ("build_hierarchy", vs.buildHierarchy),
   ("get_string", vs.getString),
   ("get_int", vs.getInt),
   ("get_bool", vs.getBool),
   ("get_float", vs.getFloat),
   ("get_list", vs.getList),
   ("pretty_print", vs.prettyPrint),
   ("round_trip", vs.roundTrip),
   ("associativity", vs.associativity),
   ("canonical_format", vs.canonical)]

/-- TestCase from the types package: the unified source/flat test record.
The current tree's types file is not under src/, so the field set is
reconstructed from the spec's data model and from every field access in
the in-repo loader and generator; defaults are the Go zero values.
Slice-valued metadata is Option (List String) because the claims and the
code distinguish nil from empty slices on exactly these fields. -/
structure TestCase where
  name : String := ""
  input : String := ""
  inputs : Option (List String) := none
  validations : Option ValidationSet := none
  validation : String := ""
  expected : Json := .null
  args : Option (List String) := none
  expectError : Bool := false
  functions : Option (List String) := none
  features : Option (List String) := none
  behaviors : Option (List String) := none
  variants : Option (List String) := none
  conflicts : Option ConflictSet := none
  meta : TestMetadata := {}
  sourceTest : String := ""

/-- TestSuite from the types package. -/
structure TestSuite where
  suite : String := ""
  version : String := ""
  description : String := ""
  tests : List TestCase := []

/-- IsTestCompatible from the loader: the five sequential early-return
checks, written as the equivalent if-chain (each Go loop with an early
return false is List.any of the failing condition). -/
def isTestCompatible (c : ImplementationConfig) (t : TestCase) : Bool :=
  if t.validation != "" && !(hasFunction c t.validation) then false
  else if (t.functions.getD []).any (fun fn => !(hasFunction c fn)) then false
  else if (t.features.getD []).any (fun f => !(hasFeature c f)) then false
  else if (match t.conflicts with
           | some cs =>
             cs.behaviors.any (fun b => hasBehavior c b) ||
               cs.variants.any (fun v => hasVariant c v)
           | none => false) then false
  else if (t.behaviors.getD []).any (fun b => !(hasBehavior c b)) then false
  else if (t.variants.getD []).any (fun v => !(hasVariant c v)) then false
  else true

/-- FilterCompatibleTests from the loader: keep, in input order, the tests
IsTestCompatible accepts. -/
def filterCompatibleTests (c : ImplementationConfig) : List TestCase → List TestCase
  | [] => []
  | t :: ts =>
    if isTestCompatible c t then t :: filterCompatibleTests c ts
    else filterCompatibleTests c ts

/-- A Go map[string]int used as a counter, modelled as a total function
that is zero outside the recorded keys. -/
def bumpCount (m : String → Nat) (k : String) : String → Nat :=
  fun x => if x = k then m x + 1 else m x

/-- One test's contribution to the ByFunction counters in
GetTestStatistics: the flat validation field (when non-empty) and every
entry of the Functions metadata. -/
def tallyFunctions (m : String → Nat) (t : TestCase) : String → Nat :=
  let m1 := if t.validation != "" then bumpCount m t.validation else m
  (t.functions.getD []).foldl bumpCount m1

/-- One test's contribution to the ByFeature counters in GetTestStatistics. -/
def tallyFeatures (m : String → Nat) (t : TestCase) : String → Nat :=
  (t.features.getD []).foldl bumpCount m

/-- TestStatistics from the types package, restricted to the fields the
loader's GetTestStatistics populates. -/
structure TestStatistics where
  totalTests : Nat
  totalAssertions : Nat
  compatibleTests : Nat
  compatibleAsserts : Nat
  byFunction : String → Nat
  byFeature : String → Nat

/-- GetTestStatistics from the loader: totals are the input length (one
assertion per flat test), the compatible counts are the length of
FilterCompatibleTests, and the per-function/per-feature counters come
from one pass over the tests. -/
def getTestStatistics (c : ImplementationConfig) (tests : List TestCase) : TestStatistics :=
  let compatible := filterCompatibleTests c tests
  { totalTests := tests.length
    totalAssertions := tests.length
    compatibleTests := compatible.length
    compatibleAsserts := compatible.length
    byFunction := tests.foldl tallyFunctions (fun _ => 0)
    byFeature := tests.foldl tallyFeatures (fun _ => 0) }

/-- Go strings.Contains for a non-empty needle: the needle occurs iff
splitting on it yields more than one piece (every use site passes the
non-empty literals "error" and "invalid"). -/
def goContains (s sub : String) : Bool :=
  decide (2 ≤ (s.splitOn sub).length)

/-- expectErrorFromValue from the generator: a legacy string expectation
signals an error when its lowercase form contains "error" or "invalid". -/
def expectErrorFromValue (value : Json) : Bool :=
  match value with
  | .str s => goContains s.toLower "error" || goContains s.toLower "invalid"
  | _ => false

/-- ValidationComponents from the generator. -/
structure ValidationComponents where
  expected : Json
  args : List String
  error : Bool

/-- parseValidationValue from the generator: a structured object yields
its expect field (defaulting to the whole object), the strings of its
args array and its boolean error flag; any other value is a legacy
expectation with empty args and the heuristic error bit. (The Go branch
casting args to a typed []string only fires on in-memory non-JSON slices,
which this Json model represents as the same string array.) -/
def parseValidationValue (value : Json) : ValidationComponents :=
  match value with
  | .obj fields =>
    { expected := (jsonLookup fields "expect").getD (Json.obj fields)
      args :=
        match jsonLookup fields "args" with
        | some (.arr elems) =>
          elems.filterMap (fun e => match e with | .str s => some s | _ => none)
        | _ => []
      error :=
        match jsonLookup fields "error" with
        | some (.bool b) => b
        | _ => false }
  | v => { expected := v, args := [], error := expectErrorFromValue v }

/-- GenerateMetadataFromValidation from the generator: the singleton
function set, plus the features implied by the validation kind. -/
def generateMetadataFromValidation (validationName : String) : List String × List String :=
  (⟨[validationName],
    match validationName with
    | "filter" => ["comments"]
    | "expand_dotted" => ["experimental_dotted_keys"]
    | _ => []⟩)

/-- behaviorFunctionMap from the generator: the static behavior to
applicable-functions table (a Go map literal, modelled as a lookup
function; a behavior outside the table maps to none). -/
def behaviorFunctionMap (behavior : String) : Option (List String) :=
  match behavior with
  | "boolean_strict" => some ["get_bool"]
  | "boolean_lenient" => some ["get_bool"]
  | "list_coercion_enabled" => some ["get_list"]
  | "list_coercion_disabled" => some ["get_list"]
  | "crlf_preserve_literal" => some ["parse", "parse_indented", "canonical_format", "load"]
  | "crlf_normalize_to_lf" => some ["parse", "parse_indented", "canonical_format", "load"]
  | "tabs_preserve" =>
    some ["parse", "parse_indented", "canonical_format", "load", "build_hierarchy"]
  | "tabs_to_spaces" =>
    some ["parse", "parse_indented", "canonical_format", "load", "build_hierarchy"]
  | "strict_spacing" => some ["parse", "parse_indented"]
  | "loose_spacing" => some ["parse", "parse_indented"]
  | "array_order_insertion" => some ["build_hierarchy", "get_list"]
  | "array_order_lexicographic" => some ["build_hierarchy", "get_list"]
  | _ => none

/-- filterBehaviorsForFunction from the generator: a nil slice becomes the
empty (non-nil) result; otherwise keep, in order, each behavior that is
unmapped in the table or whose mapped functions contain this validation. -/
def filterBehaviorsForFunction (behaviors : Option (List String)) (validationName : String) :
    List String :=
  match behaviors with
  | none => []
  | some bs =>
    bs.filter (fun b =>
      match behaviorFunctionMap b with
      | none => true
      | some fns => fns.contains validationName)

/-- filterConflictsForFunction from the generator: nil stays nil; otherwise
the behaviors sub-list is filtered for this validation, and the result is
dropped to nil when all four sub-lists come out empty. -/
def filterConflictsForFunction (conflicts : Option ConflictSet) (validationName : String) :
    Option ConflictSet :=
  match conflicts with
  | none => none
  | some cs =>
    let filteredBehaviors := filterBehaviorsForFunction (some cs.behaviors) validationName
    if 0 < cs.functions.length ∨ 0 < filteredBehaviors.length ∨
        0 < cs.variants.length ∨ 0 < cs.features.length then
      some { functions := cs.functions, behaviors := filteredBehaviors,
             variants := cs.variants, features := cs.features }
    else none

/-- Order-preserving de-duplication via a seen set, as the generator's
features merge does with its map of seen strings. -/
def dedupSeen (seen : List String) : List String → List String
  | [] => []
  | x :: xs => if seen.contains x then dedupSeen seen xs else x :: dedupSeen (x :: seen) xs

/-- The body of the generator's per-slot loop in TransformSourceToFlat:
build one flat test from a source test, a validation name and that slot's
value. Fields never assigned in the Go literal keep their zero value (in
particular the derived test has no validations map). -/
def deriveFlatTest (sourceTest : TestCase) (validationName : String) (slotValue : Json) :
    TestCase :=
  let comps := parseValidationValue slotValue
  let generated := generateMetadataFromValidation validationName
  { name := sourceTest.name ++ "_" ++ validationName
    inputs := sourceTest.inputs
    validation := validationName
    expected := comps.expected
    args := some comps.args
    expectError := comps.error
    meta := sourceTest.meta
    sourceTest := sourceTest.name
    functions := some generated.1
    features := some (dedupSeen [] (sourceTest.features.getD [] ++ generated.2))
    behaviors := some (filterBehaviorsForFunction sourceTest.behaviors validationName)
    variants := some (sourceTest.variants.getD [])
    conflicts := filterConflictsForFunction sourceTest.conflicts validationName }

/-- TransformSourceToFlat from the generator: a test without a validations
map is returned unchanged as a singleton; otherwise one flat test is
emitted per present slot, in slot order (the Go error return is always
nil, so the embedding returns the list directly). -/
def transformSourceToFlat (sourceTest : TestCase) : List TestCase :=
  match sourceTest.validations with
  | none => [sourceTest]
  | some vs =>
    vs.slots.filterMap (fun slot =>
      match slot.2 with
      | none => none
      | some v => some (deriveFlatTest sourceTest slot.1 v))

/-- The typed-accessor family, as the set literal shared by
getArgsForValidation and createValidationObject. -/
def typedAccessFunction (validation : String) : Bool :=
  validation == "get_string" || validation == "get_int" || validation == "get_bool" ||
    validation == "get_float" || validation == "get_list"

/-- getArgsForValidation from the generator: pass args through (even empty)
for the typed-accessor family, nil for every other validation so the
args field is omitted from the written encoding. -/
def getArgsForValidation (validation : String) (args : Option (List String)) :
    Option (List String) :=
  if typedAccessFunction validation then args else none

/-- CompactValidation from the loader's compact (source) format. -/
structure CompactValidation where
  function : String := ""
  expect : Json := .null
  args : Option (List String) := none
  error : Bool := false

/-- CompactTest from the loader's compact (source) format. -/
structure CompactTest where
  name : String := ""
  input : String := ""
  tests : List CompactValidation := []
  features : Option (List String) := none
  behaviors : Option (List String) := none
  variants : Option (List String) := none
  conflicts : Option ConflictSet := none

/-- createValidationObject from the loader: an object holding the expect
value, plus the args (a string array, null when the authored args slice is
nil) only for the typed-accessor family. -/
def createValidationObject (t : CompactValidation) : Json :=
  Json.obj
    (("expect", t.expect) ::
      (if typedAccessFunction t.function then
        [("args",
          match t.args with
          | none => Json.null
          | some l => Json.arr (l.map Json.str))]
      else []))

/-- Key presence on a decoded JSON object (Go comma-ok map indexing). -/
def jsonHasKey (j : Json) (key : String) : Bool :=
  match j with
  | .obj fields => (jsonLookup fields key).isSome
  | _ => false

/-- The switch in loadCompactFormat assigning a validation object to the
slot named by the compact validation's function (unknown names assign
nothing). -/
def setValidationSlot (vs : ValidationSet) (fn : String) (v : Json) : ValidationSet :=
  match fn with
  | "parse" => { vs with parse := some v }
  | "parse_dedented" => { vs with parseDedented := some v }
  | "filter" => { vs with filter := some v }
  | "combine" => { vs with combine := some v }
  | "expand_dotted" => { vs with expandDotted := some v }
  | "build_hierarchy" => { vs with buildHierarchy := some v }
  | "get_string" => { vs with getString := some v }
  | "get_int" => { vs with getInt := some v }
  | "get_bool" => { vs with getBool := some v }
  | "get_float" => { vs with getFloat := some v }
  | "get_list" => { vs with getList := some v }
  | "pretty_print" => { vs with prettyPrint := some v }
  | "round_trip" => { vs with roundTrip := some v }
  | "associativity" => { vs with associativity := some v }
  | "canonical_format" => { vs with canonical := some v }
  | _ => vs

/-- The per-test conversion inside loadCompactFormat: conflicts are kept
only when some sub-list is non-empty (empty-but-present collapses to
absent), slice metadata is normalized to non-nil, and the validations map
is built from the compact tests array. -/
def convertCompactTest (compact : CompactTest) : TestCase :=
  let conflicts : Option ConflictSet :=
    match compact.conflicts with
    | some cs =>
      if 0 < cs.functions.length ∨ 0 < cs.behaviors.length ∨
          0 < cs.variants.length ∨ 0 < cs.features.length then some cs
      else none
    | none => none
  let validations :=
    compact.tests.foldl
      (fun vs t => setValidationSlot vs t.function (createValidationObject t)) {}
  { name := compact.name
    input := compact.input
    features := some (compact.features.getD [])
    behaviors := some (compact.behaviors.getD [])
    variants := some (compact.variants.getD [])
    conflicts := conflicts
    meta := {}
    validations := some validations }

/-- loadCompactFormat from the loader, after the JSON decode of the
container object: convert each compact test in order. -/
def loadCompactFormat (tests : List CompactTest) : List TestCase :=
  tests.map convertCompactTest

/-- The flat-format byte string handed to LoadTestFile, modelled by its
decode outcomes under encoding/json: a JSON object decodes only as a
TestSuite (with whatever tests its tests field holds), a JSON array
decodes only as a bare test array, a JSON null decodes as either (leaving
zero tests), and malformed bytes decode as neither. -/
inductive FlatFileData where
  | objData (suite version : String) (tests : List TestCase)
  | arrData (tests : List TestCase)
  | nullData
  | malformed

/-- json.Unmarshal of the file bytes into a TestSuite struct. -/
def decodeAsTestSuite : FlatFileData → Option (List TestCase)
  | .objData _ _ ts => some ts
  | .nullData => some []
  | _ => none

/-- json.Unmarshal of the file bytes into a bare []TestCase. -/
def decodeAsTestArray : FlatFileData → Option (List TestCase)
  | .arrData ts => some ts
  | .nullData => some []
  | _ => none

/-- extractExpectedValue from the loader: a structured expected object
(recognized by its count field) is projected to the payload field of the
validation's family; anything else, and any missing payload field, is
returned unchanged. -/
def extractExpectedValue (validation : String) (expected : Json) : Json :=
  match expected with
  | .obj fields =>
    match jsonLookup fields "count" with
    | none => Json.obj fields
    | some _ =>
      match validation with
      | "parse" | "parse_dedented" | "filter" | "compose" | "expand_dotted" =>
        (jsonLookup fields "entries").getD (Json.obj fields)
      | "build_hierarchy" => (jsonLookup fields "object").getD (Json.obj fields)
      | "get_string" | "get_int" | "get_bool" | "get_float" =>
        (jsonLookup fields "value").getD (Json.obj fields)
      | "get_list" => (jsonLookup fields "list").getD (Json.obj fields)
      | _ => Json.obj fields
  | e => e

/-- The expected-value normalization LoadTestFile applies to every flat
test after decoding. -/
def extractStep (t : TestCase) : TestCase :=
  { t with expected := extractExpectedValue t.validation t.expected }

/-- The flat branch of LoadTestFile: try the container (TestSuite) decode
first and keep its tests when there is at least one; otherwise fall back
to the bare-array decode, failing when that also fails; the surviving
tests get the expected-value normalization and a fresh wrapper suite. -/
def loadTestFileFlat (d : FlatFileData) : Except String TestSuite :=
  let selected : Option (List TestCase) :=
    match decodeAsTestSuite d with
    | some ts => if 0 < ts.length then some ts else decodeAsTestArray d
    | none => decodeAsTestArray d
  match selected with
  | some ts =>
    Except.ok { suite := "Flat Format", version := "1.0", tests := ts.map extractStep }
  | none => Except.error "failed to parse flat format JSON"

theorem ifChainSix (a b c d e f : Bool) :
    (if a then false
     else if b then false
     else if c then false
     else if d then false
     else if e then false
     else if f then false
     else true) = (!a && !b && !c && !d && !e && !f) := by
  cases a <;> cases b <;> cases c <;> cases d <;> cases e <;> cases f <;> rfl

theorem isTestCompatible_eq (c : ImplementationConfig) (t : TestCase) :
    isTestCompatible c t =
      (!(t.validation != "" && !(hasFunction c t.validation)) &&
        !((t.functions.getD []).any fun fn => !(hasFunction c fn)) &&
        !((t.features.getD []).any fun f => !(hasFeature c f)) &&
        !(match t.conflicts with
          | some cs =>
            cs.behaviors.any (fun b => hasBehavior c b) ||
              cs.variants.any (fun v => hasVariant c v)
          | none => false) &&
        !((t.behaviors.getD []).any fun b => !(hasBehavior c b)) &&
        !((t.variants.getD []).any fun v => !(hasVariant c v))) := by
  unfold isTestCompatible
  exact ifChainSix _ _ _ _ _ _

theorem isTestCompatible_iff_checks (c : ImplementationConfig) (t : TestCase) :
    isTestCompatible c t = true ↔
      ((t.validation ≠ "" → hasFunction c t.validation = true) ∧
        (∀ fn ∈ t.functions.getD [], hasFunction c fn = true)) ∧
      (∀ f ∈ t.features.getD [], hasFeature c f = true) ∧
      (∀ cs, t.conflicts = some cs → ∀ b ∈ cs.behaviors, hasBehavior c b = false) ∧
      (∀ cs, t.conflicts = some cs → ∀ v ∈ cs.variants, hasVariant c v = false) ∧
      ((∀ b ∈ t.behaviors.getD [], hasBehavior c b = true) ∧
        (∀ v ∈ t.variants.getD [], c.variantChoice = v)) := by
  rw [isTestCompatible_eq]
  cases hc : t.conflicts with
  | none =>
    simp [hc, List.any_eq_true, Bool.not_eq_true', hasVariant, not_or, not_and]
    tauto
  | some cs =>
    simp [hc, List.any_eq_true, Bool.not_eq_true', hasVariant, not_or, not_and]
    tauto

/-- C1: IsTestCompatible(c, t) returns true if and only if all five checks
hold: (1) a non-empty flat validation name and every Functions entry are
supported functions; (2) every Features entry satisfies HasFeature; (3) no
conflicts.behaviors entry is among the behavior choices; (4) the variant
choice is not among conflicts.variants; (5) every Behaviors entry is a
behavior choice and every Variants entry equals the variant choice. Being
a pure function of c and t in this embedding, the result has no side
effects and the conjunction form shows it is order-independent. -/
theorem claim_C1_isTestCompatible_iff (c : ImplementationConfig) (t : TestCase) :
    isTestCompatible c t = true ↔
      ((t.validation ≠ "" → hasFunction c t.validation = true) ∧
        (∀ fn ∈ t.functions.getD [], hasFunction c fn = true)) ∧
      (∀ f ∈ t.features.getD [], hasFeature c f = true) ∧
      (∀ cs, t.conflicts = some cs → ∀ b ∈ cs.behaviors, hasBehavior c b = false) ∧
      (∀ cs, t.conflicts = some cs → ∀ v ∈ cs.variants, hasVariant c v = false) ∧
      ((∀ b ∈ t.behaviors.getD [], hasBehavior c b = true) ∧
        (∀ v ∈ t.variants.getD [], c.variantChoice = v)) :=
  isTestCompatible_iff_checks c t

/-- Witness for C1: the iff applied at a concrete config and test,
concluding compatibility from the five checks. -/
theorem claim_C1_witness :
    isTestCompatible
      { supportedFunctions := ["parse"], supportedFeatures := ["comments"],
        behaviorChoices := ["tabs_preserve"], variantChoice := "proposed_behavior" }
      { name := "w1", validation := "parse", features := some ["comments"],
        behaviors := some ["tabs_preserve"], variants := some ["proposed_behavior"] } = true :=
  (claim_C1_isTestCompatible_iff _ _).mpr
    (by refine ⟨⟨fun _ => rfl, ?_⟩, ?_, ?_, ?_, ?_, ?_⟩ <;> simp [hasFeature, hasBehavior])

/-- C10: GetTestStatistics reports CompatibleTests as the length of
FilterCompatibleTests (never recomputed), TotalTests as the input length,
and the assertion counters as aliases of the test counters. -/
theorem claim_C10_statistics_consistency (c : ImplementationConfig) (ts : List TestCase) :
    (getTestStatistics c ts).compatibleTests = (filterCompatibleTests c ts).length ∧
    (getTestStatistics c ts).totalTests = ts.length ∧
    (getTestStatistics c ts).totalAssertions = (getTestStatistics c ts).totalTests ∧
    (getTestStatistics c ts).compatibleAsserts = (getTestStatistics c ts).compatibleTests :=
  ⟨rfl, rfl, rfl, rfl⟩

/-- Counterexample for C5: a feature listed in both supportedFeatures and
unsupportedFeatures. The claim predicts HasFeature = false from the
unsupported membership, but the supported scan runs first and returns
true. -/
theorem claim_C5_counterexample :
    ({ supportedFeatures := ["comments"], unsupportedFeatures := ["comments"] }
        : ImplementationConfig).unsupportedFeatures.contains "comments" = true ∧
    hasFeature
      { supportedFeatures := ["comments"], unsupportedFeatures := ["comments"] }
      "comments" = true :=
  ⟨rfl, rfl⟩

/-- C5 (amended): membership in supportedFeatures is decisive — HasFeature
returns true exactly when the feature is in supportedFeatures. So a
feature in unsupportedFeatures yields false only when it is also absent
from supportedFeatures, and a feature in neither set yields false
(closed-world default). -/
theorem claim_C5_amended (c : ImplementationConfig) (f : String) :
    (c.supportedFeatures.contains f = false → hasFeature c f = false) ∧
    (c.supportedFeatures.contains f = true → hasFeature c f = true) := by
  constructor <;> intro h <;> simp at h <;> simp [hasFeature, h]

/-- Witness for C5 (amended): a feature only in unsupportedFeatures comes
out false, a supported feature comes out true. -/
theorem claim_C5_witness :
    hasFeature { unsupportedFeatures := ["unicode"] } "unicode" = false ∧
    hasFeature { supportedFeatures := ["comments"] } "comments" = true :=
  ⟨(claim_C5_amended { unsupportedFeatures := ["unicode"] } "unicode").1 rfl,
   (claim_C5_amended { supportedFeatures := ["comments"] } "comments").2 rfl⟩

/-- Counterexample for C7: a test whose validations map is present but has
every slot empty. The claim predicts the identity [t]; the code's loop
emits nothing, so the result is the empty sequence. -/
theorem claim_C7_counterexample :
    transformSourceToFlat { name := "t7", validations := some {} } = [] ∧
    transformSourceToFlat { name := "t7", validations := some {} }
      ≠ [{ name := "t7", validations := some {} }] :=
  ⟨rfl, fun h => List.cons_ne_nil _ _ h.symm⟩

/-- C7 (amended): expansion is the identity exactly on tests whose
validations map is absent (nil) — which includes every already-flat
test; a present-but-empty validations map instead yields the empty
sequence, not [t]. -/
theorem claim_C7_amended (t : TestCase) (h : t.validations = none) :
    transformSourceToFlat t = [t] := by
  unfold transformSourceToFlat
  rw [h]

/-- Witness for C7 (amended): a flat-shaped test with no validations map
passes through unchanged. -/
theorem claim_C7_witness :
    transformSourceToFlat { name := "flat", validation := "parse" }
      = [{ name := "flat", validation := "parse" }] :=
  claim_C7_amended { name := "flat", validation := "parse" } rfl

theorem deriveFlatTest_name (src : TestCase) (n : String) (v : Json) :
    (deriveFlatTest src n v).name = src.name ++ "_" ++ n := rfl

theorem transformSlots_names (src : TestCase) (l : List (String × Option Json)) :
    ((l.filterMap fun slot =>
        match slot.2 with
        | none => none
        | some v => some (deriveFlatTest src slot.1 v)).map (fun d => d.name))
      = (l.filter fun s => s.2.isSome).map (fun s => src.name ++ "_" ++ s.1) := by
  induction l with
  | nil => rfl
  | cons hd tl ih =>
    obtain ⟨n, sl⟩ := hd
    cases sl <;>
      simp [List.filterMap_cons, List.filter_cons, deriveFlatTest_name, ih]

theorem transformSlots_sourceTest (src : TestCase) (l : List (String × Option Json)) :
    ∀ d ∈ (l.filterMap fun slot =>
        match slot.2 with
        | none => none
        | some v => some (deriveFlatTest src slot.1 v)), d.sourceTest = src.name := by
  induction l with
  | nil => intro d hd; cases hd
  | cons hd tl ih =>
    obtain ⟨n, sl⟩ := hd
    cases sl with
    | none => simpa [List.filterMap_cons] using ih
    | some v =>
      intro d hd
      rw [List.filterMap_cons] at hd
      rcases List.mem_cons.mp hd with h | h
      · rw [h]; rfl
      · exact ih d h

/-- C2: for a source test whose validations map is present with k filled
slots, TransformSourceToFlat yields exactly k derived tests; positionally,
each derived test is named sourceName_validationName for its slot and
carries SourceTest = sourceName. -/
theorem claim_C2_expansion_count (t : TestCase) (vs : ValidationSet)
    (h : t.validations = some vs) :
    (transformSourceToFlat t).length
        = (vs.slots.filter (fun s => s.2.isSome)).length ∧
    (transformSourceToFlat t).map (fun d => d.name)
        = (vs.slots.filter (fun s => s.2.isSome)).map (fun s => t.name ++ "_" ++ s.1) ∧
    (∀ d ∈ transformSourceToFlat t, d.sourceTest = t.name) := by
  have htr : transformSourceToFlat t
      = vs.slots.filterMap (fun slot =>
          match slot.2 with
          | none => none
          | some v => some (deriveFlatTest t slot.1 v)) := by
    unfold transformSourceToFlat
    rw [h]
  refine ⟨?_, ?_, ?_⟩
  · have := congrArg List.length (htr ▸ transformSlots_names t vs.slots)
    simpa using this
  · rw [htr]; exact transformSlots_names t vs.slots
  · rw [htr]; exact transformSlots_sourceTest t vs.slots

/-- Witness for C2: a source test with two filled slots (parse, get_int)
expands to two tests with the derived names and back-references. -/
theorem claim_C2_witness :
    (transformSourceToFlat
        { name := "basic", validations := some { parse := some (Json.str "p"),
                                                 getInt := some (Json.num 30) } }).length = 2 ∧
    (transformSourceToFlat
        { name := "basic", validations := some { parse := some (Json.str "p"),
                                                 getInt := some (Json.num 30) } }).map
        (fun d => d.name) = ["basic_parse", "basic_get_int"] := by
  have h := claim_C2_expansion_count
    { name := "basic", validations := some { parse := some (Json.str "p"),
                                             getInt := some (Json.num 30) } }
    { parse := some (Json.str "p"), getInt := some (Json.num 30) } rfl
  exact ⟨h.1.trans rfl, h.2.1.trans rfl⟩

/-- C3: a derived test retains a source behavior exactly when the behavior
is unmapped in the static behavior-applicability table or the derived
validation is among its mapped functions; concretely, behaviors =
[boolean_strict] over the slots parse and get_bool expands to a parse
test with empty (non-nil) behaviors and a get_bool test keeping
boolean_strict. -/
theorem claim_C3_behavior_filtering :
    (∀ (bs : List String) (vname b : String),
        b ∈ filterBehaviorsForFunction (some bs) vname ↔
          b ∈ bs ∧ (behaviorFunctionMap b = none ∨
            ∃ fns, behaviorFunctionMap b = some fns ∧ vname ∈ fns)) ∧
    (transformSourceToFlat
        { name := "boolcase", behaviors := some ["boolean_strict"],
          validations := some { parse := some (Json.str "p"),
                                getBool := some (Json.bool true) } }).map
      (fun d => d.behaviors) = [some [], some ["boolean_strict"]] := by
  constructor
  · intro bs vname b
    unfold filterBehaviorsForFunction
    rw [List.mem_filter]
    cases hm : behaviorFunctionMap b <;> simp [hm]
  · rfl

/-- Witness for C3: the retention law applied at the concrete table entry
for boolean_strict, which maps only to get_bool, so a parse-derived test
drops it. -/
theorem claim_C3_witness :
    ¬ ("boolean_strict" ∈ filterBehaviorsForFunction (some ["boolean_strict"]) "parse") :=
  fun h => by
    have h2 := (claim_C3_behavior_filtering.1 ["boolean_strict"] "parse" "boolean_strict").mp h
    rcases h2.2 with h3 | ⟨fns, h3, h4⟩
    · exact Option.noConfusion h3
    · rw [show behaviorFunctionMap "boolean_strict" = some ["get_bool"] from rfl] at h3
      cases Option.some.injEq _ _ ▸ h3 with
      | refl => simp at h4

/-- C4: a present conflict set whose four sub-lists are all empty after
the behavior filter collapses to an absent (nil) conflicts field; a
conflicts.behaviors = [boolean_strict] source expanded for a parse slot
yields Conflicts = nil; and loading the compact (source) format applies
the same empty-to-absent normalization. -/
theorem claim_C4_conflict_collapse :
    (∀ (cs : ConflictSet) (vname : String),
        cs.functions = [] → cs.variants = [] → cs.features = [] →
        filterBehaviorsForFunction (some cs.behaviors) vname = [] →
        filterConflictsForFunction (some cs) vname = none) ∧
    ((transformSourceToFlat
        { name := "confcase", conflicts := some { behaviors := ["boolean_strict"] },
          validations := some { parse := some (Json.str "p") } }).map
      (fun d => d.conflicts) = [none]) ∧
    (∀ (ct : CompactTest) (cs : ConflictSet), ct.conflicts = some cs →
        cs.functions = [] → cs.behaviors = [] → cs.variants = [] → cs.features = [] →
        (convertCompactTest ct).conflicts = none) := by
  refine ⟨?_, rfl, ?_⟩
  · intro cs vname h1 h2 h3 h4
    simp [filterConflictsForFunction, h1, h2, h3, h4]
  · intro ct cs hcs h1 h2 h3 h4
    simp [convertCompactTest, hcs, h1, h2, h3, h4]

/-- Witness for C4: the collapse law applied to a conflict set naming only
a behavior that the parse slot filters away, and the load-time
normalization applied to an empty authored conflict object. -/
theorem claim_C4_witness :
    filterConflictsForFunction (some { behaviors := ["boolean_strict"] }) "parse" = none ∧
    (convertCompactTest { name := "c", conflicts := some {} }).conflicts = none :=
  ⟨claim_C4_conflict_collapse.1 { behaviors := ["boolean_strict"] } "parse" rfl rfl rfl rfl,
   claim_C4_conflict_collapse.2.2 { name := "c", conflicts := some {} } {} rfl rfl rfl rfl rfl⟩

/-- C6: the flat branch of LoadTestFile tries the container (TestSuite)
decode first; when that decode succeeds with at least one test, those
tests (after expected-value normalization) are the result, and the
bare-sequence decode decides the outcome only when the container decode
fails or yields zero tests. -/
theorem claim_C6_flat_decode_order (d : FlatFileData) :
    (∀ ts, decodeAsTestSuite d = some ts → 0 < ts.length →
        loadTestFileFlat d =
          Except.ok { suite := "Flat Format", version := "1.0",
                      tests := ts.map extractStep }) ∧
    ((decodeAsTestSuite d = none ∨ decodeAsTestSuite d = some []) →
        loadTestFileFlat d =
          match decodeAsTestArray d with
          | some ts =>
            Except.ok { suite := "Flat Format", version := "1.0",
                        tests := ts.map extractStep }
          | none => Except.error "failed to parse flat format JSON") := by
  constructor
  · intro ts hdec hlen
    unfold loadTestFileFlat
    simp only [hdec, hlen, if_true, if_pos]
  · intro hdec
    unfold loadTestFileFlat
    rcases hdec with h | h <;> rw [h] <;> try rfl


/-- Witness for C6: a container object wrapping one test yields exactly
that test, and a bare array (on which the container decode fails) falls
through to the bare-sequence decode. -/
theorem claim_C6_witness :
    loadTestFileFlat (FlatFileData.objData "s" "v" [{ name := "w6" }])
        = Except.ok { suite := "Flat Format", version := "1.0",
                      tests := [extractStep { name := "w6" }] } ∧
    loadTestFileFlat (FlatFileData.arrData [{ name := "w6b" }])
        = Except.ok { suite := "Flat Format", version := "1.0",
                      tests := [extractStep { name := "w6b" }] } :=
  ⟨(claim_C6_flat_decode_order (FlatFileData.objData "s" "v" [{ name := "w6" }])).1
      [{ name := "w6" }] rfl (by decide),
   ((claim_C6_flat_decode_order (FlatFileData.arrData [{ name := "w6b" }])).2
      (Or.inl rfl)).trans rfl⟩

theorem hasFeature_eq_supported (c : ImplementationConfig) (f : String) :
    hasFeature c f = c.supportedFeatures.contains f := by
  unfold hasFeature
  cases h1 : c.supportedFeatures.contains f <;>
    cases h2 : c.unsupportedFeatures.contains f <;> simp [h1, h2]

theorem isTestCompatible_mono (A B : ImplementationConfig)
    (hvar : A.variantChoice = B.variantChoice)
    (hfn : ∀ x, B.supportedFunctions.contains x = true →
        A.supportedFunctions.contains x = true)
    (hft : ∀ x, B.supportedFeatures.contains x = true →
        A.supportedFeatures.contains x = true)
    (hbh : ∀ x, B.behaviorChoices.contains x = true → A.behaviorChoices.contains x = true)
    (t : TestCase) (hnc : t.conflicts = none)
    (h : isTestCompatible B t = true) : isTestCompatible A t = true := by
  rw [isTestCompatible_iff_checks] at h ⊢
  obtain ⟨⟨h1a, h1b⟩, h2, _, _, h5a, h5b⟩ := h
  refine ⟨⟨fun hv => hfn _ (h1a hv), fun fn hfn2 => hfn _ (h1b fn hfn2)⟩, ?_, ?_, ?_, ?_, ?_⟩
  · intro f hf
    have hs := h2 f hf
    rw [hasFeature_eq_supported] at hs ⊢
    exact hft _ hs
  · intro cs hcs
    rw [hnc] at hcs
    cases hcs
  · intro cs hcs
    rw [hnc] at hcs
    cases hcs
  · exact fun b hb => hbh _ (h5a b hb)
  · exact fun v hv => hvar.trans (h5b v hv)

theorem filterCompatibleTests_sublist_mono (A B : ImplementationConfig)
    (ts : List TestCase)
    (h : ∀ t ∈ ts, isTestCompatible B t = true → isTestCompatible A t = true) :
    (filterCompatibleTests B ts).Sublist (filterCompatibleTests A ts) := by
  induction ts with
  | nil => exact List.Sublist.refl _
  | cons t tl ih =>
    have htl := ih (fun u hu => h u (List.mem_cons_of_mem t hu))
    unfold filterCompatibleTests
    cases hb : isTestCompatible B t with
    | true =>
      rw [h t (List.mem_cons_self t tl) hb]
      simpa using htl.cons₂ t
    | false =>
      cases ha : isTestCompatible A t with
      | true => simpa using htl.cons t
      | false => simpa using htl

theorem filterCompatibleTests_sublist (c : ImplementationConfig) (ts : List TestCase) :
    (filterCompatibleTests c ts).Sublist ts := by
  induction ts with
  | nil => exact List.Sublist.refl _
  | cons t tl ih =>
    unfold filterCompatibleTests
    cases hc : isTestCompatible c t with
    | true => simpa using ih.cons₂ t
    | false => simpa using ih.cons t

/-- C8: compatibility is monotone in capabilities — for valid configs with
the same variant choice where A's supported functions, supported features
and behavior choices include B's, every conflict-free test compatible
with B is compatible with A, and FilterCompatibleTests under B is a
subsequence of FilterCompatibleTests under A, itself a subsequence of the
input. -/
theorem claim_C8_monotonicity (A B : ImplementationConfig) (ts : List TestCase)
    (hA : isValidConfig A = true) (hB : isValidConfig B = true)
    (hvar : A.variantChoice = B.variantChoice)
    (hfn : ∀ x, B.supportedFunctions.contains x = true →
        A.supportedFunctions.contains x = true)
    (hft : ∀ x, B.supportedFeatures.contains x = true →
        A.supportedFeatures.contains x = true)
    (hbh : ∀ x, B.behaviorChoices.contains x = true → A.behaviorChoices.contains x = true)
    (hnc : ∀ t ∈ ts, t.conflicts = none) :
    (∀ t ∈ ts, isTestCompatible B t = true → isTestCompatible A t = true) ∧
    (filterCompatibleTests B ts).Sublist (filterCompatibleTests A ts) ∧
    (filterCompatibleTests A ts).Sublist ts := by
  have mono : ∀ t ∈ ts, isTestCompatible B t = true → isTestCompatible A t = true :=
    fun t ht => isTestCompatible_mono A B hvar hfn hft hbh t (hnc t ht)
  exact ⟨mono, filterCompatibleTests_sublist_mono A B ts mono,
    filterCompatibleTests_sublist A ts⟩

/-- Witness for C8: a config supporting parse and filter dominates one
supporting only parse on a conflict-free test list. -/
theorem claim_C8_witness :
    (filterCompatibleTests { supportedFunctions := ["parse"] }
        [{ name := "w8", validation := "parse" }]).Sublist
      (filterCompatibleTests { supportedFunctions := ["parse", "filter"] }
        [{ name := "w8", validation := "parse" }]) :=
  (claim_C8_monotonicity
    { supportedFunctions := ["parse", "filter"] } { supportedFunctions := ["parse"] }
    [{ name := "w8", validation := "parse" }]
    rfl rfl rfl
    (fun x hx => by simp_all)
    (fun x hx => by simp at hx)
    (fun x hx => by simp at hx)
    (fun t ht => by rw [List.mem_singleton] at ht; rw [ht])).2.1

/-- Counterexample for C9: expanding a source test with only a parse slot.
The claim predicts an absent (nil) args field on the in-memory derived
test, but TransformSourceToFlat populates args with an empty non-nil
slice for every validation kind. -/
theorem claim_C9_counterexample :
    (transformSourceToFlat
        { name := "p9", validations := some { parse := some (Json.str "ok") } }).map
      (fun d => d.args) = [some []] ∧
    (some ([] : List String)) ≠ (none : Option (List String)) :=
  ⟨rfl, fun h => Option.noConfusion h⟩

/-- C9 (amended): args absence for non-typed-accessor validations holds at
the conversion and encoding boundary, not on the intermediate in-memory
derived test — getArgsForValidation turns the derived args into nil for
every validation outside the typed-accessor family (so the written flat
encoding omits the field) and passes them through for typed accessors,
createValidationObject includes an args key exactly for typed accessors,
while the TestCase produced by TransformSourceToFlat always carries the
parsed (possibly empty, non-nil) args of its slot. -/
theorem claim_C9_amended :
    (∀ (v : String) (args : Option (List String)),
        typedAccessFunction v = false → getArgsForValidation v args = none) ∧
    (∀ (v : String) (args : Option (List String)),
        typedAccessFunction v = true → getArgsForValidation v args = args) ∧
    (∀ t : CompactValidation,
        jsonHasKey (createValidationObject t) "args" = typedAccessFunction t.function) ∧
    (∀ (src : TestCase) (n : String) (v : Json),
        (deriveFlatTest src n v).args = some (parseValidationValue v).args) := by
  refine ⟨?_, ?_, ?_, fun src n v => rfl⟩
  · intro v args h
    simp [getArgsForValidation, h]
  · intro v args h
    simp [getArgsForValidation, h]
  · intro t
    unfold createValidationObject jsonHasKey
    cases h : typedAccessFunction t.function <;> simp [jsonLookup]

/-- Witness for C9 (amended): parse is outside the typed-accessor family,
so its args are dropped at conversion; get_int keeps its args. -/
theorem claim_C9_witness :
    getArgsForValidation "parse" (some ["x"]) = none ∧
    getArgsForValidation "get_int" (some ["age"]) = some ["age"] :=
  ⟨claim_C9_amended.1 "parse" (some ["x"]) rfl,
   claim_C9_amended.2.1 "get_int" (some ["age"]) rfl⟩
